import Mathlib

/-!
# Circular index helpers of `QHarmonicProcessor`

A shallow embedding of `Sources/qharmonicprocessor.h`.

The header defines four inline index helpers (`loop`, `loopInput`,
`loopBuffer`, `loopOnTwo`).  Their C++ bodies mix a `qint16` argument with
either an `unsigned int` field or an `int` literal, so the usual arithmetic
conversions decide what each one computes:

* with an `unsigned int` length the promoted argument is converted to
  `unsigned int` (reduced modulo `2^32`) before `%` is taken, and the sum is
  an `unsigned int` sum (reduced modulo `2^32`);
* with an `int` literal everything stays in `int`, where `%` truncates
  towards zero (`Int.tmod`);
* the returned value is narrowed to `quint16` (modulo `2^16`) or `quint8`
  (modulo `2^8`).

Machine integers are `Nat`/`Int` with the reductions written out; `int` and
`unsigned int` are 32 bits wide, as on every platform Qt supports.  A zero
length makes `%` undefined in C++, so every statement about `loop` and
`loopBuffer` assumes a positive length.
-/

/-! ## Integer conversions -/

/-- Conversion of an `int` value to `unsigned int` (32 bits). -/
def toUInt (x : Int) : Nat := (x % 4294967296).toNat

/-- Narrowing of an integer value to `quint16`. -/
def toQuint16 (x : Int) : Nat := (x % 65536).toNat

/-- Narrowing of an integer value to `quint8`. -/
def toQuint8 (x : Int) : Nat := (x % 256).toNat

/-- Narrowing of an `int` value to `qint16` (two's complement wrap), as
happens when an `int` expression is passed for a `qint16` parameter. -/
def toQint16 (x : Int) : Int := (x + 32768) % 65536 - 32768

/-! ## Constants of the header -/

/-- Line 13: `#define DIGITAL_FILTER_LENGTH 9`, an `int` literal. -/
def DIGITAL_FILTER_LENGTH : Int := 9

/-- Line 11: `#define SNR_TRESHOLD 2.0`. -/
def SNR_TRESHOLD : ℚ := 2

/-! ## Processor state -/

/-- Line 32: `enum ColorChannel { Red, Green, Blue, RGB, Experimental }`. -/
inductive ColorChannel where
  | Red | Green | Blue | RGB | Experimental
  deriving DecidableEq

/-- The integer, boolean and enumeration members of `QHarmonicProcessor`
(header lines 97-150).  `unsigned int` members are naturals below `2^32`,
`quint16` members naturals below `2^16`.  The `qreal` members, the arrays
and the FFT/ALGLIB handles are not read by any index helper and are left
out. -/
structure QHarmonicProcessor where
  curpos : Nat
  m_DataLength : Nat
  m_BufferLength : Nat
  f_PCA : Bool
  m_ColorChannel : ColorChannel
  m_zerocrossing : Nat
  m_PulseCounter : Int
  m_ID : Nat
  m_estimationInterval : Nat
  m_HeartSNRControlFlag : Bool
  m_BreathStrobe : Nat
  m_BreathStrobeCounter : Nat
  m_BreathCurpos : Nat
  m_BreathAverageInterval : Nat
  m_BreathCNInterval : Nat
  m_pruningFlag : Bool
  deriving DecidableEq

namespace QHarmonicProcessor

/-- A processor state whose two length members hold the given values, as
the constructor `QHarmonicProcessor(parent, length_of_data, length_of_buffer)`
(line 30, both defaults 221) receives them; the members no index helper
reads are zero. -/
def withLengths (length_of_data length_of_buffer : Nat) : QHarmonicProcessor where
  curpos := 0
  m_DataLength := length_of_data
  m_BufferLength := length_of_buffer
  f_PCA := false
  m_ColorChannel := ColorChannel.Green
  m_zerocrossing := 0
  m_PulseCounter := 0
  m_ID := 0
  m_estimationInterval := 0
  m_HeartSNRControlFlag := true
  m_BreathStrobe := 0
  m_BreathStrobeCounter := 0
  m_BreathCurpos := 0
  m_BreathAverageInterval := 0
  m_BreathCNInterval := 0
  m_pruningFlag := false

/-! ## The index helpers (header lines 154-172) -/

/-- Line 156:
`return ((m_DataLength + (difference % m_DataLength)) % m_DataLength);`
with `m_DataLength` an `unsigned int` and the result a `quint16`. -/
def loop (self : QHarmonicProcessor) (difference : Int) : Nat :=
  toQuint16 (((self.m_DataLength + toUInt difference % self.m_DataLength) % 4294967296
    % self.m_DataLength : Nat) : Int)

/-- Line 161:
`return ((DIGITAL_FILTER_LENGTH + (difference % DIGITAL_FILTER_LENGTH)) % DIGITAL_FILTER_LENGTH);`
in `int` arithmetic, the result a `quint16`. -/
def loopInput (_self : QHarmonicProcessor) (difference : Int) : Nat :=
  toQuint16 (Int.tmod (DIGITAL_FILTER_LENGTH + Int.tmod difference DIGITAL_FILTER_LENGTH)
    DIGITAL_FILTER_LENGTH)

/-- Line 166:
`return ((m_BufferLength + (difference % m_BufferLength)) % m_BufferLength);`
with `m_BufferLength` an `unsigned int` and the result a `quint16`. -/
def loopBuffer (self : QHarmonicProcessor) (difference : Int) : Nat :=
  toQuint16 (((self.m_BufferLength + toUInt difference % self.m_BufferLength) % 4294967296
    % self.m_BufferLength : Nat) : Int)

/-- Line 171: `return ((2 + (difference % 2)) % 2);` in `int` arithmetic,
the result a `quint8`. -/
def loopOnTwo (_self : QHarmonicProcessor) (difference : Int) : Nat :=
  toQuint8 (Int.tmod (2 + Int.tmod difference 2) 2)

end QHarmonicProcessor

/-! ## Heart-rate reporting

The header declares `computeHeartRate`, `setSnrControl` and the signals
`heartRateUpdated` and `heartTooNoisy`, but their bodies live in a source
file that is not part of this development.  The spectral analysis itself is
floating-point work on FFT output; what is modelled here is only the
decision taken on its two results, the frequency and the SNR, which are
carried as rationals because they are only compared and passed on. -/

/-- The heart-rate signals of the header: line 41
`heartRateUpdated(qreal freq_value, qreal snr_value, bool reliable_data_flag)`
and line 45 `heartTooNoisy(qreal snr_value)`. -/
inductive HeartSignal where
  | heartRateUpdated (freq_value snr_value : ℚ) (reliable_data_flag : Bool)
  | heartTooNoisy (snr_value : ℚ)
  deriving DecidableEq

namespace QHarmonicProcessor

/-- Modelled from the spec: the body of `setSnrControl(bool value)` (line 82)
is missing; section 6 lists "SNR-control enable/disable" as configuration,
held in the member `m_HeartSNRControlFlag` (line 125). -/
def setSnrControl (self : QHarmonicProcessor) (value : Bool) : QHarmonicProcessor :=
  { self with m_HeartSNRControlFlag := value }

/-- Modelled from the spec: the reliability decision inside the missing body
of `computeHeartRate` (line 64), section 4.4 step 5: with SNR control enabled
the result is reliable iff the SNR is at least the threshold; with SNR
control disabled it is always reported reliable. -/
def heartReliable (self : QHarmonicProcessor) (snr : ℚ) : Bool :=
  if self.m_HeartSNRControlFlag then decide (SNR_TRESHOLD ≤ snr) else true

/-- Modelled from the spec: the signals the missing body of
`computeHeartRate` (line 64) emits for a computed frequency and SNR, section
4.4 step 6: the frequency/SNR/reliability triple and, if not reliable,
additionally the too-noisy notification carrying the SNR. -/
def computeHeartRate (self : QHarmonicProcessor) (freq snr : ℚ) : List HeartSignal :=
  HeartSignal.heartRateUpdated freq snr (self.heartReliable snr) ::
    (if self.heartReliable snr then [] else [HeartSignal.heartTooNoisy snr])

end QHarmonicProcessor

/-- The common shape of lines 156 and 166, with the length as a parameter:
`loop` is this expression at `m_DataLength`, `loopBuffer` at
`m_BufferLength`. -/
def unsignedWrap (L : Nat) (d : Int) : Nat :=
  toQuint16 (((L + toUInt d % L) % 4294967296 % L : Nat) : Int)

/-! ## Arithmetic lemmas -/

/-- Truncated remainder by a positive modulus in terms of the floor remainder. -/
theorem tmod_nat_cases (d : Int) (n : Nat) :
    Int.tmod d n = if 0 ≤ d then d % n else -((-d) % n) := by
  split
  · next h => exact Int.tmod_eq_emod h (Int.ofNat_nonneg n)
  · next h =>
    obtain ⟨k, rfl⟩ := Int.eq_negSucc_of_lt_zero (not_le.mp h)
    rfl

/-- The `unsigned int` wrap expression shared by `loop` and `loopBuffer`
never reaches the length. -/
theorem wrapExpr_lt (L : Nat) (hL : 0 < L) (d : Int) :
    unsignedWrap L d < L := by
  unfold unsignedWrap
  have h := Nat.mod_lt ((L + toUInt d % L) % 4294967296) hL
  unfold toQuint16
  omega

/-- On a non-negative `qint16` offset the wrap expression is the remainder
of the offset, as long as the `unsigned int` sum cannot overflow. -/
theorem wrapExpr_of_nonneg (L : Nat) (hL : 0 < L) (hL2 : L + 32767 < 4294967296)
    (d : Int) (h0 : 0 ≤ d) (h1 : d ≤ 32767) :
    unsignedWrap L d = d.toNat % L := by
  unfold unsignedWrap
  have hu : toUInt d = d.toNat := by unfold toUInt; omega
  have hr := Nat.mod_lt d.toNat hL
  have hle := Nat.mod_le d.toNat L
  have hs : (L + d.toNat % L) % 4294967296 = L + d.toNat % L :=
    Nat.mod_eq_of_lt (by omega)
  rw [hu, hs, Nat.add_mod_left, Nat.mod_mod]
  unfold toQuint16
  omega

/-- On a negative `qint16` offset the wrap expression is the remainder of
the offset's `unsigned int` image `2^32 + d`. -/
theorem wrapExpr_of_neg (L : Nat) (hL : 0 < L) (hL2 : L ≤ 65536)
    (d : Int) (h0 : -32768 ≤ d) (h1 : d < 0) :
    unsignedWrap L d = (4294967296 + d).toNat % L := by
  unfold unsignedWrap
  have hu : toUInt d = (4294967296 + d).toNat := by unfold toUInt; omega
  have hr := Nat.mod_lt (4294967296 + d).toNat hL
  have hs : (L + (4294967296 + d).toNat % L) % 4294967296
      = L + (4294967296 + d).toNat % L := Nat.mod_eq_of_lt (by omega)
  rw [hu, hs, Nat.add_mod_left, Nat.mod_mod]
  unfold toQuint16
  omega

/-- A length up to `65535` is a power of two exactly when it divides `2^32`. -/
theorem pow_two_iff_dvd (L : Nat) (hL2 : L ≤ 65535) :
    (∃ k : Nat, L = 2 ^ k) ↔ L ∣ 4294967296 := by
  constructor
  · rintro ⟨k, rfl⟩
    have hk : k ≤ 32 := by
      by_contra hc
      have h33 : 2 ^ 33 ≤ 2 ^ k := Nat.pow_le_pow_right (by decide) (by omega)
      norm_num at h33
      omega
    exact Nat.pow_dvd_pow 2 hk
  · intro h
    have h32 : (4294967296 : Nat) = 2 ^ 32 := by norm_num
    rw [h32] at h
    obtain ⟨k, _, hk⟩ := (Nat.dvd_prime_pow Nat.prime_two).1 h
    exact ⟨k, hk⟩

/-- The wrap expression on `qint16` offsets, as an integer remainder:
of `d` itself when `d ≥ 0`, of `2^32 + d` when `d < 0`. -/
theorem wrapExpr_cast (L : Nat) (hL : 0 < L) (hL2 : L ≤ 65535)
    (d : Int) (hlo : -32768 ≤ d) (hhi : d ≤ 32767) :
    (unsignedWrap L d : Int) = if 0 ≤ d then d % (L : Int) else (4294967296 + d) % (L : Int) := by
  split
  · next h =>
    rw [wrapExpr_of_nonneg L hL (by omega) d h hhi, Int.natCast_mod, Int.toNat_of_nonneg h]
  · next h =>
    rw [wrapExpr_of_neg L hL (by omega) d hlo (by omega), Int.natCast_mod,
      Int.toNat_of_nonneg (by omega)]

/-- The wrap expression agrees with the floor remainder on every `qint16`
offset exactly when the length is a power of two. -/
theorem wrapExpr_exact_iff (L : Nat) (hL : 0 < L) (hL2 : L ≤ 65535) :
    (∀ d : Int, -32768 ≤ d → d ≤ 32767 → (unsignedWrap L d : Int) = d % (L : Int))
      ↔ ∃ k : Nat, L = 2 ^ k := by
  rw [pow_two_iff_dvd L hL2]
  constructor
  · intro h
    have h1 := h (-1) (by decide) (by decide)
    rw [wrapExpr_cast L hL hL2 (-1) (by decide) (by decide)] at h1
    simp only [show ¬ ((0 : Int) ≤ -1) by decide, if_false] at h1
    have hm : Int.ModEq (L : Int) (-1) (4294967296 + -1) := h1.symm
    have hd : (L : Int) ∣ ((4294967296 + -1) - (-1) : Int) := hm.dvd
    have hd2 : (L : Int) ∣ ((4294967296 : Nat) : Int) := by
      simpa using hd
    exact Int.natCast_dvd_natCast.1 hd2
  · intro h d hlo hhi
    rw [wrapExpr_cast L hL hL2 d hlo hhi]
    split
    · rfl
    · obtain ⟨c, hc⟩ := h
      have hc2 : (4294967296 : Int) = (L : Int) * (c : Int) := by exact_mod_cast hc
      rw [hc2, add_comm, Int.add_mul_emod_self_left]

namespace QHarmonicProcessor

/-- The value of `loopInput` is the floor remainder modulo 9. -/
theorem loopInput_eq_emod (s : QHarmonicProcessor) (d : Int) :
    (s.loopInput d : Int) = d % 9 := by
  unfold loopInput toQuint16 DIGITAL_FILTER_LENGTH
  have h1 := tmod_nat_cases d 9
  have h2 := tmod_nat_cases (9 + Int.tmod d 9) 9
  simp only [Nat.cast_ofNat] at h1 h2
  rw [h2, h1]
  split <;> omega

/-- The value of `loopOnTwo` is the floor remainder modulo 2. -/
theorem loopOnTwo_eq_emod (s : QHarmonicProcessor) (d : Int) :
    (s.loopOnTwo d : Int) = d % 2 := by
  unfold loopOnTwo toQuint8
  have h1 := tmod_nat_cases d 2
  have h2 := tmod_nat_cases (2 + Int.tmod d 2) 2
  simp only [Nat.cast_ofNat] at h1 h2
  rw [h2, h1]
  split <;> omega

end QHarmonicProcessor

/-! ## Range of the wrap helpers -/

namespace QHarmonicProcessor

/-- C1: for every processor state with `m_DataLength > 0` and
`m_BufferLength > 0` and every offset `d` (every signed 16-bit value,
negative ones included), `loop(d) < m_DataLength`,
`loopBuffer(d) < m_BufferLength` and `loopInput(d) < 9`. -/
theorem wrap_helpers_in_range (s : QHarmonicProcessor) (d : Int)
    (hD : 0 < s.m_DataLength) (hB : 0 < s.m_BufferLength) :
    s.loop d < s.m_DataLength ∧ s.loopBuffer d < s.m_BufferLength ∧ s.loopInput d < 9 := by
  refine ⟨wrapExpr_lt _ hD d, wrapExpr_lt _ hB d, ?_⟩
  have h := loopInput_eq_emod s d
  omega

/-- Witness for C1 at the default lengths and offset `-1`. -/
theorem wrap_helpers_in_range_witness :
    (withLengths 221 221).loop (-1) < 221 ∧ (withLengths 221 221).loopBuffer (-1) < 221
      ∧ (withLengths 221 221).loopInput (-1) < 9 :=
  wrap_helpers_in_range (withLengths 221 221) (-1) (by decide) (by decide)

/-! ## The digital-filter window wrap -/

/-- C5: for every offset `d` (every signed 16-bit value, negative ones
included), `loopInput(d)` is the non-negative remainder of `d` modulo 9: it
lies in `[0, 9)`, `loopInput(-1) = 8`, `loopInput(d) = loopInput(d + 9)`, and
the value is the same in every processor state. -/
theorem loopInput_positive_modulo (s : QHarmonicProcessor) (d : Int) :
    (s.loopInput d : Int) = d % 9
      ∧ s.loopInput d < 9
      ∧ s.loopInput (-1) = 8
      ∧ s.loopInput d = s.loopInput (d + 9)
      ∧ (∀ t : QHarmonicProcessor, t.loopInput d = s.loopInput d) := by
  have h := loopInput_eq_emod s d
  have h9 := loopInput_eq_emod s (d + 9)
  have hm := loopInput_eq_emod s (-1)
  refine ⟨h, by omega, by omega, by omega, fun t => rfl⟩

/-! ## The two-slot derivative index -/

/-- C9: for every offset `d` (every signed 16-bit value), `loopOnTwo(d)` is
0 when `d` is even and 1 when `d` is odd, negative odd `d` included
(`loopOnTwo(-1) = 1`); it is below 2, a valid index of the two-element
`v_Derivative`; and `loopOnTwo(d + 1) = 1 - loopOnTwo(d)`, also when `d + 1`
is narrowed back to `qint16`. -/
theorem loopOnTwo_parity (s : QHarmonicProcessor) (d : Int) :
    s.loopOnTwo d = (if d % 2 = 0 then 0 else 1)
      ∧ s.loopOnTwo (-1) = 1
      ∧ s.loopOnTwo d < 2
      ∧ s.loopOnTwo (d + 1) = 1 - s.loopOnTwo d
      ∧ s.loopOnTwo (toQint16 (d + 1)) = 1 - s.loopOnTwo d := by
  have h := loopOnTwo_eq_emod s d
  have h1 := loopOnTwo_eq_emod s (d + 1)
  have hq := loopOnTwo_eq_emod s (toQint16 (d + 1))
  have hm := loopOnTwo_eq_emod s (-1)
  unfold toQint16 at *
  refine ⟨?_, by omega, by omega, by omega, by omega⟩
  split <;> omega

/-! ## Independence of the three modulus domains -/

/-- C6: for any two processor states and every offset `d`: if the states
agree on `m_DataLength` then `loop(d)` is the same in both, if they agree on
`m_BufferLength` then `loopBuffer(d)` is the same in both, `loopInput(d)` is
the same in every state, and within one state `loop` and `loopBuffer` return
the same index when `m_DataLength == m_BufferLength`. -/
theorem modulus_domains_independent (s t : QHarmonicProcessor) (d : Int) :
    (s.m_DataLength = t.m_DataLength → s.loop d = t.loop d)
      ∧ (s.m_BufferLength = t.m_BufferLength → s.loopBuffer d = t.loopBuffer d)
      ∧ s.loopInput d = t.loopInput d
      ∧ (s.m_DataLength = s.m_BufferLength → s.loop d = s.loopBuffer d) := by
  refine ⟨fun h => ?_, fun h => ?_, rfl, fun h => ?_⟩
  · unfold loop; rw [h]
  · unfold loopBuffer; rw [h]
  · unfold loop loopBuffer; rw [h]

/-- Witness for C6: states that share one length and differ in the other,
and a state with equal lengths. -/
theorem modulus_domains_independent_witness :
    (withLengths 221 128).loop (-5) = (withLengths 221 256).loop (-5)
      ∧ (withLengths 300 256).loopBuffer (-5) = (withLengths 221 256).loopBuffer (-5)
      ∧ (withLengths 300 128).loopInput (-5) = (withLengths 221 256).loopInput (-5)
      ∧ (withLengths 221 221).loop (-5) = (withLengths 221 221).loopBuffer (-5) :=
  ⟨(modulus_domains_independent (withLengths 221 128) (withLengths 221 256) (-5)).1 rfl,
   (modulus_domains_independent (withLengths 300 256) (withLengths 221 256) (-5)).2.1 rfl,
   (modulus_domains_independent (withLengths 300 128) (withLengths 221 256) (-5)).2.2.1,
   (modulus_domains_independent (withLengths 221 221) (withLengths 221 221) (-5)).2.2.2 rfl⟩

/-! ## Forward cursors -/

/-- On non-negative offsets the wrap expression steps forward by one slot
and returns to slot 0 after the last one, for every length whose
`unsigned int` sum with a `qint16` offset stays below `2^32`. -/
theorem unsignedWrap_forward (L : Nat) (hL : 0 < L) (hL2 : L + 32767 < 4294967296)
    (d : Int) (h0 : 0 ≤ d) (h1 : d < 32767) :
    unsignedWrap L d = d.toNat % L
      ∧ unsignedWrap L (d + 1) = (unsignedWrap L d + 1) % L
      ∧ (d < L → (unsignedWrap L d : Int) = d)
      ∧ (L ≤ 32767 → unsignedWrap L (L : Int) = 0) := by
  have e0 := wrapExpr_of_nonneg L hL hL2 d h0 (by omega)
  have e1 := wrapExpr_of_nonneg L hL hL2 (d + 1) (by omega) (by omega)
  have hs : (d + 1).toNat = d.toNat + 1 := by omega
  refine ⟨e0, ?_, fun hlt => ?_, fun hle => ?_⟩
  · rw [e1, e0, hs, Nat.mod_add_mod]
  · rw [e0, Nat.mod_eq_of_lt (by omega)]
    omega
  · rw [wrapExpr_of_nonneg L hL hL2 (L : Int) (by omega) (by omega)]
    simp

/-- C8: for every `m_DataLength` `L > 0` that the constructor can set (its
`length_of_data` parameter is a `quint16`, so `L ≤ 65535`) and every
non-negative offset `d < 32767`: `loop(d) = d mod L` and
`loop(d + 1) = (loop(d) + 1) mod L`; in particular `loop(d) = d` for
`0 ≤ d < L`, and `loop(L) = 0` when `L` is representable as `qint16`.  The
same holds for `loopBuffer` with `m_BufferLength`. -/
theorem forward_cursor_advances (s : QHarmonicProcessor) (d : Int)
    (h0 : 0 ≤ d) (h1 : d < 32767) :
    (0 < s.m_DataLength → s.m_DataLength ≤ 65535 →
        s.loop d = d.toNat % s.m_DataLength
          ∧ s.loop (d + 1) = (s.loop d + 1) % s.m_DataLength
          ∧ (d < s.m_DataLength → (s.loop d : Int) = d)
          ∧ (s.m_DataLength ≤ 32767 → s.loop (s.m_DataLength : Int) = 0))
      ∧ (0 < s.m_BufferLength → s.m_BufferLength ≤ 65535 →
        s.loopBuffer d = d.toNat % s.m_BufferLength
          ∧ s.loopBuffer (d + 1) = (s.loopBuffer d + 1) % s.m_BufferLength
          ∧ (d < s.m_BufferLength → (s.loopBuffer d : Int) = d)
          ∧ (s.m_BufferLength ≤ 32767 → s.loopBuffer (s.m_BufferLength : Int) = 0)) :=
  ⟨fun hL hL2 => unsignedWrap_forward s.m_DataLength hL (by omega) d h0 h1,
   fun hL hL2 => unsignedWrap_forward s.m_BufferLength hL (by omega) d h0 h1⟩

/-- Witness for C8: lengths 221 and 256, offset 220, where the data cursor
wraps to slot 0 and the buffer cursor moves on to slot 221. -/
theorem forward_cursor_advances_witness :
    ((withLengths 221 256).loop 220 = (220 : Int).toNat % 221
        ∧ (withLengths 221 256).loop (220 + 1) = ((withLengths 221 256).loop 220 + 1) % 221
        ∧ ((withLengths 221 256).loop 220 : Int) = 220
        ∧ (withLengths 221 256).loop ((221 : Nat) : Int) = 0)
      ∧ ((withLengths 221 256).loopBuffer 220 = (220 : Int).toNat % 256
        ∧ (withLengths 221 256).loopBuffer (220 + 1)
            = ((withLengths 221 256).loopBuffer 220 + 1) % 256
        ∧ ((withLengths 221 256).loopBuffer 220 : Int) = 220
        ∧ (withLengths 221 256).loopBuffer ((256 : Nat) : Int) = 0) :=
  have h := forward_cursor_advances (withLengths 221 256) 220 (by decide) (by decide)
  have hD := h.1 (by decide) (by decide)
  have hB := h.2 (by decide) (by decide)
  ⟨⟨hD.1, hD.2.1, hD.2.2.1 (by decide), hD.2.2.2 (by decide)⟩,
   ⟨hB.1, hB.2.1, hB.2.2.1 (by decide), hB.2.2.2 (by decide)⟩⟩

/-! ## Negative offsets against an `unsigned int` length -/

/-- C10: for every length `L` with `0 < L ≤ 65535`, `loop(d)` (with
`m_DataLength = L`) equals the non-negative remainder of `d` modulo `L` for
every signed 16-bit offset `d` if and only if `L` is a power of two; and for
any such `L` a negative `d` yields `loop(d) = (2^32 + d) mod L`.  The same
holds for `loopBuffer` with `m_BufferLength`, which is therefore exact for
the buffer length 256. -/
theorem wrap_exact_iff_power_of_two (s : QHarmonicProcessor) :
    (0 < s.m_DataLength → s.m_DataLength ≤ 65535 →
        ((∀ d : Int, -32768 ≤ d → d ≤ 32767 → (s.loop d : Int) = d % (s.m_DataLength : Int))
            ↔ ∃ k : Nat, s.m_DataLength = 2 ^ k)
          ∧ (∀ d : Int, -32768 ≤ d → d < 0 →
              (s.loop d : Int) = (4294967296 + d) % (s.m_DataLength : Int)))
      ∧ (0 < s.m_BufferLength → s.m_BufferLength ≤ 65535 →
        ((∀ d : Int, -32768 ≤ d → d ≤ 32767 →
              (s.loopBuffer d : Int) = d % (s.m_BufferLength : Int))
            ↔ ∃ k : Nat, s.m_BufferLength = 2 ^ k)
          ∧ (∀ d : Int, -32768 ≤ d → d < 0 →
              (s.loopBuffer d : Int) = (4294967296 + d) % (s.m_BufferLength : Int)))
      ∧ (s.m_BufferLength = 256 →
          ∀ d : Int, -32768 ≤ d → d ≤ 32767 → (s.loopBuffer d : Int) = d % 256) := by
  have key : ∀ L : Nat, 0 < L → L ≤ 65535 →
      ((∀ d : Int, -32768 ≤ d → d ≤ 32767 → (unsignedWrap L d : Int) = d % (L : Int))
          ↔ ∃ k : Nat, L = 2 ^ k)
        ∧ (∀ d : Int, -32768 ≤ d → d < 0 →
            (unsignedWrap L d : Int) = (4294967296 + d) % (L : Int)) := by
    intro L hL hL2
    refine ⟨wrapExpr_exact_iff L hL hL2, fun d hlo hneg => ?_⟩
    rw [wrapExpr_cast L hL hL2 d hlo (by omega), if_neg (by omega)]
  refine ⟨key s.m_DataLength, key s.m_BufferLength, fun h256 d hlo hhi => ?_⟩
  have h : (s.loopBuffer d : Int) = d % (s.m_BufferLength : Int) :=
    (wrapExpr_exact_iff s.m_BufferLength (by omega) (by omega)).2
      ⟨8, by rw [h256]; rfl⟩ d hlo hhi
  rw [h, h256]
  rfl

/-- Witness for C10 at data length 221 and buffer length 256: `loop(-1)` is
`(2^32 - 1) mod 221`, no power of two equals 221 so `loop` is not exact
there, and `loopBuffer(-1)` is the true remainder 255. -/
theorem wrap_exact_iff_power_of_two_witness :
    ((withLengths 221 256).loop (-1) : Int) = (4294967296 + -1) % 221
      ∧ ((withLengths 221 256).loopBuffer (-1) : Int) = (-1) % 256
      ∧ ((withLengths 221 256).loopBuffer (-1) : Int) = (4294967296 + -1) % 256
      ∧ ((withLengths 256 256).loop (-1) : Int) = (-1) % 256 :=
  ⟨((wrap_exact_iff_power_of_two (withLengths 221 256)).1 (by decide) (by decide)).2 (-1)
      (by decide) (by decide),
   (wrap_exact_iff_power_of_two (withLengths 221 256)).2.2 rfl (-1) (by decide) (by decide),
   ((wrap_exact_iff_power_of_two (withLengths 221 256)).2.1 (by decide) (by decide)).2 (-1)
      (by decide) (by decide),
   ((wrap_exact_iff_power_of_two (withLengths 256 256)).1 (by decide) (by decide)).1.2
      ⟨8, rfl⟩ (-1) (by decide) (by decide)⟩

/-! ## The default length 221 -/

/-- C2 at the default length 221 and offset `-1`: both `-1` and
`-1 + 221 = 220` are `qint16` values, `loop(-1)` is 34 and `loop(220)` is
220. -/
theorem loop_shift_by_length_default :
    (withLengths 221 221).loop (-1) = 34 ∧ (withLengths 221 221).loop (-1 + 221) = 220 := by
  decide

/-- C3 at the default length 221: `loop(-1)` is 34, while the non-negative
remainder of `-1` modulo 221 is 220. -/
theorem loop_default_minus_one :
    (withLengths 221 221).loop (-1) = 34 ∧ (-1 : Int) % 221 = 220 := by
  decide

/-- C4 at the default buffer length 221: `loopBuffer(-1)` is 34, while the
non-negative remainder of `-1` modulo 221 is 220. -/
theorem loopBuffer_default_minus_one :
    (withLengths 221 221).loopBuffer (-1) = 34 ∧ (-1 : Int) % 221 = 220 := by
  decide

/-! ## The spectral reliability rule -/

/-- C7: for every computed frequency and SNR, the reliable flag that
`computeHeartRate` emits through `heartRateUpdated` is true exactly when the
SNR is at least `SNR_TRESHOLD` (2.0) with SNR control enabled, or SNR control
is disabled; after `setSnrControl(false)` it is always true; and
`heartTooNoisy` is emitted, carrying the SNR, when the result is not
reliable (and only then). -/
theorem heart_reliability_rule (s : QHarmonicProcessor) (freq snr : ℚ) :
    SNR_TRESHOLD = 2
      ∧ (∀ f q b, HeartSignal.heartRateUpdated f q b ∈ s.computeHeartRate freq snr ↔
          (f = freq ∧ q = snr ∧ b = s.heartReliable snr))
      ∧ (s.heartReliable snr = true ↔
          ((SNR_TRESHOLD ≤ snr ∧ s.m_HeartSNRControlFlag = true)
            ∨ s.m_HeartSNRControlFlag = false))
      ∧ (s.setSnrControl false).heartReliable snr = true
      ∧ (s.heartReliable snr = false →
          HeartSignal.heartTooNoisy snr ∈ s.computeHeartRate freq snr)
      ∧ (s.heartReliable snr = true →
          ∀ q, HeartSignal.heartTooNoisy q ∉ s.computeHeartRate freq snr) := by
  refine ⟨rfl, fun f q b => ?_, ?_, rfl, fun h => ?_, fun h q => ?_⟩
  · unfold computeHeartRate
    cases s.heartReliable snr <;> simp
  · unfold heartReliable
    cases s.m_HeartSNRControlFlag <;> simp
  · unfold computeHeartRate
    simp [h]
  · unfold computeHeartRate
    simp [h]

/-- Witness for C7: with SNR control enabled an SNR of 1 is not reliable and
`heartTooNoisy(1)` is emitted; an SNR of 3 is reliable and no `heartTooNoisy`
is emitted. -/
theorem heart_reliability_rule_witness :
    HeartSignal.heartTooNoisy 1 ∈ (withLengths 221 221).computeHeartRate (5 / 4) 1
      ∧ (∀ q, HeartSignal.heartTooNoisy q ∉ (withLengths 221 221).computeHeartRate (5 / 4) 3) :=
  ⟨(heart_reliability_rule (withLengths 221 221) (5 / 4) 1).2.2.2.2.1
      (by simp [heartReliable, withLengths, SNR_TRESHOLD]),
   (heart_reliability_rule (withLengths 221 221) (5 / 4) 3).2.2.2.2.2
      (by simp [heartReliable, withLengths, SNR_TRESHOLD]; norm_num)⟩

end QHarmonicProcessor
